import Mathlib

/-!
# sbdd: a forwarding block device driver (src/sbdd.c)

A shallow embedding of the driver's module state, of its request handler
`sbdd_make_request`, of `sbdd_create` / `sbdd_delete` / `sbdd_init`, and of the
interleavings of request handlers with one teardown.

Kernel objects the driver only holds pointers to are records carrying their
address; the answers of the kernel calls that can fail are inputs (`Env`,
`MrEnv`); every kernel call the driver makes is appended to a call log.
-/

namespace Sbdd

/-! ## Kernel constants used by the driver -/

/-- Value of `BLK_STS_OK` in `linux/blk_types.h`. -/
def BLK_STS_OK : Nat := 0

/-- Value of `BLK_STS_IOERR` in `linux/blk_types.h`. -/
def BLK_STS_IOERR : Nat := 10

/-- Value of `BLK_QC_T_NONE`, that is `-1U`, in `linux/blk_types.h`. -/
def BLK_QC_T_NONE : Nat := 4294967295

/-- Value of `EBUSY`. -/
def EBUSY : Int := 16

/-- Value of `EINVAL`. -/
def EINVAL : Int := 22

/-- Value of `MAX_ERRNO` in `linux/err.h`. -/
def MAX_ERRNO : Int := 4095

/-! ## `atomic_t` arithmetic

`atomic_t` wraps a C `int`; the kernel's atomics wrap around in two's
complement. -/

/-- Reduction of an integer to the range of a 32-bit signed `int`. -/
def wrap32 (x : Int) : Int := (x + 2147483648) % 4294967296 - 2147483648

/-- The range of a 32-bit signed `int`. -/
def isInt32 (x : Int) : Prop := -2147483648 ≤ x ∧ x ≤ 2147483647

instance (x : Int) : Decidable (isInt32 x) := by
  unfold isInt32
  infer_instance

/-- Kernel `atomic_read`. -/
def atomic_read (v : Int) : Int := v

/-- Kernel `atomic_inc_not_zero`: adds one unless the value is zero; tells
whether it added. Returns the new value and the answer. -/
def atomic_inc_not_zero (v : Int) : Int × Bool :=
  if v = 0 then (v, false) else (wrap32 (v + 1), true)

/-- Kernel `atomic_dec_and_test`: subtracts one and tells whether the result
is zero. Returns the new value and the answer. -/
def atomic_dec_and_test (v : Int) : Int × Bool :=
  (wrap32 (v - 1), wrap32 (v - 1) == 0)

/-- Kernel `atomic_dec_if_positive`: subtracts one unless the result would be
negative. Returns the new value (the driver ignores the call's result). -/
def atomic_dec_if_positive (v : Int) : Int :=
  if wrap32 (v - 1) < 0 then v else wrap32 (v - 1)

/-! ## Data model -/

/-- The completion handler slot `bi_end_io` of a bio. -/
inductive EndIo where
  | unset
  | bio_chain_endio
  | other (fn : Nat)
  deriving DecidableEq

/-- The fields of `struct bio` the driver and its kernel helpers touch. -/
structure Bio where
  /-- address of the descriptor -/
  addr : Nat
  /-- target device (`bi_disk` and `bi_partno`) -/
  bi_dev : Nat
  /-- opcode and flags -/
  bi_opf : Nat
  /-- offset, in sectors (`bi_iter.bi_sector`) -/
  bi_sector : Nat
  /-- length, in bytes (`bi_iter.bi_size`) -/
  bi_size : Nat
  /-- address of the `bio_vec` array, the buffers -/
  bi_io_vec : Nat
  bi_status : Nat
  /-- for a chained bio, the address of its parent -/
  bi_private : Option Nat
  bi_end_io : EndIo
  /-- the counter `__bi_remaining` -/
  bi_remaining : Int
  /-- the flag `BIO_CHAIN`: a chained child has been added to this bio -/
  bi_chain : Bool
  deriving DecidableEq

/-- What the driver reads of the backing `struct block_device`. -/
structure BlockDevice where
  addr : Nat
  /-- value of `get_capacity(bdev->bd_disk)`, in sectors -/
  capacity : Nat
  /-- value of `bdev_logical_block_size(bdev)` -/
  logical_block_size : Nat
  deriving DecidableEq

/-- The `struct request_queue` of the virtual device. -/
structure RequestQueue where
  addr : Nat
  /-- set by `blk_queue_make_request(q, sbdd_make_request)` -/
  make_request_fn : Bool
  logical_block_size : Nat
  deriving DecidableEq

/-- The `struct gendisk` of the virtual device. -/
structure Gendisk where
  addr : Nat
  queue : Option Nat
  major : Int
  first_minor : Nat
  disk_name : String
  capacity : Nat
  deriving DecidableEq

/-- The driver's `struct sbdd` (the wait queue head `exitwait` carries no
data of its own: waiting is the guard `wait_cond` below). -/
structure SbddDev where
  deleting : Int
  refs_cnt : Int
  capacity : Nat
  gd : Option Gendisk
  q : Option RequestQueue
  dst_device : Option BlockDevice
  deriving DecidableEq

/-- Calls into the kernel, in the order the driver makes them. -/
inductive Event where
  | register_blkdev (res : Int)
  | bioset_init (res : Int)
  | blkdev_get_by_path (opened : Bool)
  | blk_alloc_queue (got : Bool)
  | alloc_disk (got : Bool)
  | add_disk (gd : Nat)
  | del_gendisk (gd : Nat)
  | blk_cleanup_queue (q : Nat)
  | put_disk (gd : Nat)
  | blkdev_put (bdev : Nat)
  | bioset_exit
  | unregister_blkdev (major : Int)
  | bio_endio (bio : Nat) (status : Nat)
  | inc_not_zero (added : Bool)
  | dec_and_test (zero : Bool)
  | dec_if_positive
  | submit_bio (clone : Bio)
  | pr_warn (ret : Nat)
  | wake_up
  deriving DecidableEq

/-- The module's globals (`__sbdd`, `__sbdd_major`, `__bio_set`) together with
the kernel resources the module holds and the log of its kernel calls. -/
structure Module where
  sbdd : SbddDev
  sbdd_major : Int
  /-- whether `__bio_set` is initialised -/
  bio_set : Bool
  /-- major numbers registered under the name `sbdd` -/
  majors : List Int
  /-- backing handles obtained and not yet put -/
  handles : List Nat
  /-- gendisks made visible by `add_disk` and not yet deleted -/
  disks : List Nat
  log : List Event
  deriving DecidableEq

/-- The state `memset(&__sbdd, 0, sizeof(struct sbdd))` leaves (also the state
of the static `__sbdd` when the module is loaded). -/
def SbddDev.zero : SbddDev :=
  { deleting := 0, refs_cnt := 0, capacity := 0, gd := none, q := none, dst_device := none }

/-- The module's globals when the module is loaded: static storage is zero. -/
def Module.zero : Module :=
  { sbdd := SbddDev.zero, sbdd_major := 0, bio_set := false,
    majors := [], handles := [], disks := [], log := [] }

/-! ## Kernel bio helpers -/

/-- Kernel `bio_io_error`: sets `bi_status` to `BLK_STS_IOERR` and ends the
bio. -/
def bio_io_error (bio : Bio) : Bio := { bio with bi_status := BLK_STS_IOERR }

/-- Kernel `bio_clone_fast` with `GFP_KERNEL` from a bio set (it does not fail):
a new descriptor at `addr` with the same target, opcode, iterator and the same
`bio_vec` array; completion fields are fresh. -/
def bio_clone_fast (bio : Bio) (addr : Nat) : Bio :=
  { addr := addr, bi_dev := bio.bi_dev, bi_opf := bio.bi_opf, bi_sector := bio.bi_sector,
    bi_size := bio.bi_size, bi_io_vec := bio.bi_io_vec, bi_status := BLK_STS_OK,
    bi_private := none, bi_end_io := EndIo.unset, bi_remaining := 1, bi_chain := false }

/-- Kernel `bio_set_dev`. -/
def bio_set_dev (bio : Bio) (bdev : BlockDevice) : Bio := { bio with bi_dev := bdev.addr }

/-- Kernel `bio_chain(bio, parent)`: the child's handler becomes
`bio_chain_endio` with the parent as its private data, and
`bio_inc_remaining(parent)` sets the parent's flag `BIO_CHAIN` and increments
its `__bi_remaining`. Returns the child and the parent. -/
def bio_chain (bio parent : Bio) : Bio × Bio :=
  ({ bio with bi_private := some parent.addr, bi_end_io := EndIo.bio_chain_endio },
   { parent with bi_remaining := wrap32 (parent.bi_remaining + 1), bi_chain := true })

/-- Kernel `__bio_chain_endio`: when the chained child completes, the parent
takes the child's status unless it already carries one. -/
def bio_chain_endio (bio parent : Bio) : Bio :=
  if parent.bi_status = 0 then { parent with bi_status := bio.bi_status } else parent

/-- Kernel `bio_remaining_done`: a bio without the flag `BIO_CHAIN` is done;
one with the flag is done when decrementing `__bi_remaining` reaches zero, and
the flag is then cleared. Returns the answer and the bio. -/
def bio_remaining_done (bio : Bio) : Bool × Bio :=
  if bio.bi_chain = false then (true, bio)
  else if wrap32 (bio.bi_remaining - 1) = 0 then
    (true, { bio with bi_remaining := wrap32 (bio.bi_remaining - 1), bi_chain := false })
  else (false, { bio with bi_remaining := wrap32 (bio.bi_remaining - 1) })

/-- Kernel `bio_endio(bio)` for a bio whose parent in a chain, if it has one,
is `parent`: when `bio` is done and its handler is `bio_chain_endio`, the
parent takes the status and `bio_endio` goes on with the parent, which is ended
only when it is done in turn. Returns the parent and whether the parent is
ended, that is whether its own completion handler is due. -/
def bio_endio_child (bio parent : Bio) : Bio × Bool :=
  if (bio_remaining_done bio).1 = false then (parent, false)
  else if bio.bi_end_io ≠ EndIo.bio_chain_endio then (parent, false)
  else ((bio_remaining_done (bio_chain_endio bio parent)).2,
        (bio_remaining_done (bio_chain_endio bio parent)).1)

/-! ## `sbdd_make_request` -/

/-- Answers of the kernel during one `sbdd_make_request`. -/
structure MrEnv where
  /-- address of the descriptor `bio_clone_fast` allocates -/
  clone_addr : Nat
  /-- value `submit_bio` returns -/
  submit_ret : Nat
  deriving DecidableEq

/-- Line 75: `atomic_read(&__sbdd.deleting)` as a condition. -/
def mr_deleting (m : Module) : Bool := atomic_read m.sbdd.deleting != 0

/-- Lines 76-77 and 81-82: `bio_io_error(bio)`. -/
def mr_reject (m : Module) (bio : Bio) : Bio × Module :=
  (bio_io_error bio, { m with log := m.log ++ [Event.bio_endio bio.addr BLK_STS_IOERR] })

/-- Line 80: `atomic_inc_not_zero(&__sbdd.refs_cnt)`. -/
def mr_inc_not_zero (m : Module) : Bool × Module :=
  ((atomic_inc_not_zero m.sbdd.refs_cnt).2,
   { m with sbdd := { m.sbdd with refs_cnt := (atomic_inc_not_zero m.sbdd.refs_cnt).1 },
            log := m.log ++ [Event.inc_not_zero (atomic_inc_not_zero m.sbdd.refs_cnt).2] })

/-- The clone lines 85-88 build: `bio_clone_fast`, `bio_set_dev`, `bio_chain`.
`none` is the NULL dereference of `bio_set_dev` on a NULL `dst_device`. -/
def mr_clone (m : Module) (bio : Bio) (e : MrEnv) : Option (Bio × Bio) :=
  match m.sbdd.dst_device with
  | none => none
  | some d => some (bio_chain (bio_set_dev (bio_clone_fast bio e.clone_addr) d) bio)

/-- The calls lines 92-95 add to the log: `submit_bio(new_bio)` and, for a
result that is neither `BLK_STS_OK` nor `BLK_QC_T_NONE`, the warning. -/
def submit_events (clone : Bio) (e : MrEnv) : List Event :=
  [Event.submit_bio clone] ++
    (if e.submit_ret ≠ BLK_STS_OK ∧ e.submit_ret ≠ BLK_QC_T_NONE
     then [Event.pr_warn e.submit_ret] else [])

/-- Lines 92-95: `submit_bio(new_bio)` and the warning. -/
def mr_submit (m : Module) (clone : Bio) (e : MrEnv) : Nat × Module :=
  (e.submit_ret, { m with log := m.log ++ submit_events clone e })

/-- The calls lines 97-98 add to the log when `refs_cnt` is `v`:
`atomic_dec_and_test` and, when it reached zero, `wake_up`. -/
def release_events (v : Int) : List Event :=
  [Event.dec_and_test (atomic_dec_and_test v).2] ++
    (if (atomic_dec_and_test v).2 then [Event.wake_up] else [])

/-- Lines 97-98: `atomic_dec_and_test(&__sbdd.refs_cnt)` and the wake-up. -/
def mr_release (m : Module) : Module :=
  { m with sbdd := { m.sbdd with refs_cnt := (atomic_dec_and_test m.sbdd.refs_cnt).1 },
           log := m.log ++ release_events m.sbdd.refs_cnt }

/-- The function `sbdd_make_request` run without interruption. Returns the
value returned, the caller's bio as the driver leaves it, and the module
state; `none` is a NULL dereference. -/
def sbdd_make_request (m : Module) (bio : Bio) (e : MrEnv) : Option (Nat × Bio × Module) :=
  if mr_deleting m then
    some (BLK_STS_IOERR, mr_reject m bio)
  else if (mr_inc_not_zero m).1 = false then
    some (BLK_STS_IOERR, mr_reject (mr_inc_not_zero m).2 bio)
  else
    match mr_clone (mr_inc_not_zero m).2 bio e with
    | none => none
    | some (clone, bio1) =>
      some ((mr_submit (mr_inc_not_zero m).2 clone e).1, bio1,
            mr_release (mr_submit (mr_inc_not_zero m).2 clone e).2)

/-! ## `sbdd_create`, `sbdd_delete`, `sbdd_init` -/

/-- Ways the sequential code fails to return. -/
inductive Fault where
  /-- a NULL pointer is dereferenced -/
  | null_deref
  /-- the call of `wait_event` sleeps on a condition nobody else will make true -/
  | blocked
  deriving DecidableEq

/-- Answers of the kernel during `sbdd_create`. -/
structure Env where
  /-- result of `register_blkdev(0, "sbdd")` -/
  register_blkdev : Int
  /-- result of `bioset_init` -/
  bioset_init : Int
  /-- result of `blkdev_get_by_path`: a device, or the error of an `ERR_PTR` -/
  blkdev_get_by_path : Except Int BlockDevice
  /-- address `blk_alloc_queue` returns, `none` for NULL -/
  blk_alloc_queue : Option Nat
  /-- address `alloc_disk` returns, `none` for NULL -/
  alloc_disk : Option Nat

/-- The kernel's contracts for the answers: `register_blkdev(0, _)` returns a
negative errno or the positive major it allocated; `bioset_init` returns zero
or a negative errno; an `ERR_PTR` carries an errno in `-MAX_ERRNO .. -1`. -/
def Env.valid (env : Env) : Prop :=
  env.register_blkdev ≠ 0 ∧ env.bioset_init ≤ 0 ∧
  match env.blkdev_get_by_path with
  | .error e => -MAX_ERRNO ≤ e ∧ e ≤ -1
  | .ok _ => True

instance (env : Env) : Decidable env.valid := by
  unfold Env.valid
  cases env.blkdev_get_by_path <;> infer_instance

/-- The function `init_dst_device`: returns its result and the new value of
`*dst_device`, and opens the handle. -/
def init_dst_device (env : Env) (m : Module) : Int × Module :=
  match env.blkdev_get_by_path with
  | .error e => (e, { m with log := m.log ++ [Event.blkdev_get_by_path false] })
  | .ok bdev =>
    (0, { m with sbdd := { m.sbdd with dst_device := some bdev },
                 handles := bdev.addr :: m.handles,
                 log := m.log ++ [Event.blkdev_get_by_path true] })

/-- Lines 121-125: `register_blkdev`. -/
def create_register (env : Env) (m : Module) : Module :=
  { m with sbdd_major := env.register_blkdev,
           majors := if 0 < env.register_blkdev then env.register_blkdev :: m.majors else m.majors,
           log := m.log ++ [Event.register_blkdev env.register_blkdev] }

/-- Lines 127-129: the `memset` and `bioset_init`. -/
def create_bioset (env : Env) (m : Module) : Module :=
  { m with sbdd := SbddDev.zero, bio_set := decide (env.bioset_init = 0),
           log := m.log ++ [Event.bioset_init env.bioset_init] }

/-- Lines 147-174 once queue and disk are allocated: configure the queue and
the gendisk, set `refs_cnt` to 1, `add_disk`. -/
def create_finish (m : Module) (d : BlockDevice) (qa ga : Nat) : Module :=
  { m with
    sbdd := { m.sbdd with
      q := some { addr := qa, make_request_fn := true,
                  logical_block_size := d.logical_block_size },
      gd := some { addr := ga, queue := some qa, major := m.sbdd_major, first_minor := 0,
                   disk_name := "sbdd", capacity := m.sbdd.capacity },
      refs_cnt := 1 },
    disks := ga :: m.disks,
    log := m.log ++ [Event.blk_alloc_queue true, Event.alloc_disk true, Event.add_disk ga] }

/-- The function `sbdd_create`. Returns its result and the module state. -/
def sbdd_create (env : Env) (m0 : Module) : Except Fault (Int × Module) :=
  let m1 := create_register env m0
  if m1.sbdd_major < 0 then .ok (-EBUSY, m1) else
  let m2 := create_bioset env m1
  if env.bioset_init ≠ 0 then .ok (env.bioset_init, m2) else
  let r := init_dst_device env m2
  if r.1 ≠ 0 then .ok r else
  let m3 := r.2
  match m3.sbdd.dst_device with
  | none => .error Fault.null_deref
  | some d =>
    let m4 := { m3 with sbdd := { m3.sbdd with capacity := d.capacity } }
    match env.blk_alloc_queue with
    | none => .ok (-EINVAL, { m4 with log := m4.log ++ [Event.blk_alloc_queue false] })
    | some qa =>
      match env.alloc_disk with
      | none => .error Fault.null_deref
      | some ga => .ok (0, create_finish m4 d qa ga)

/-- Line 180: `atomic_set(&__sbdd.deleting, 1)`. -/
def del_set_deleting (m : Module) : Module :=
  { m with sbdd := { m.sbdd with deleting := 1 } }

/-- Line 181: `atomic_dec_if_positive(&__sbdd.refs_cnt)`. -/
def del_dec (m : Module) : Module :=
  { m with sbdd := { m.sbdd with refs_cnt := atomic_dec_if_positive m.sbdd.refs_cnt },
           log := m.log ++ [Event.dec_if_positive] }

/-- Line 182: the condition of `wait_event`. -/
def wait_cond (m : Module) : Bool := atomic_read m.sbdd.refs_cnt == 0

/-- Lines 185-196: `del_gendisk`, `blk_cleanup_queue`, `put_disk`. -/
def del_disk (m : Module) : Module :=
  { m with
    disks := match m.sbdd.gd with
      | some gd => m.disks.erase gd.addr
      | none => m.disks,
    log := m.log ++
      (match m.sbdd.gd with
       | some gd => [Event.del_gendisk gd.addr]
       | none => []) ++
      (match m.sbdd.q with
       | some q => [Event.blk_cleanup_queue q.addr]
       | none => []) ++
      (match m.sbdd.gd with
       | some gd => [Event.put_disk gd.addr]
       | none => []) }

/-- Lines 198-201: `blkdev_put`. -/
def del_put (m : Module) : Module :=
  match m.sbdd.dst_device with
  | some d => { m with handles := m.handles.erase d.addr,
                       log := m.log ++ [Event.blkdev_put d.addr] }
  | none => m

/-- Lines 204-207: `bioset_exit` and the `memset`. -/
def del_zero (m : Module) : Module :=
  { m with sbdd := SbddDev.zero, bio_set := false, log := m.log ++ [Event.bioset_exit] }

/-- Lines 209-213: `unregister_blkdev`. -/
def del_unregister (m : Module) : Module :=
  if 0 < m.sbdd_major then
    { m with sbdd_major := 0, majors := m.majors.erase m.sbdd_major,
             log := m.log ++ [Event.unregister_blkdev m.sbdd_major] }
  else m

/-- The function `sbdd_delete` run with no other thread: when the condition
of `wait_event` is false it never returns. -/
def sbdd_delete (m : Module) : Except Fault Module :=
  let m1 := del_dec (del_set_deleting m)
  if wait_cond m1 then .ok (del_unregister (del_zero (del_put (del_disk m1))))
  else .error Fault.blocked

/-- The function `sbdd_init`. Returns its result and the module state. -/
def sbdd_init (env : Env) (m : Module) : Except Fault (Int × Module) :=
  match sbdd_create env m with
  | .error f => .error f
  | .ok (ret, m1) =>
    if ret ≠ 0 then
      match sbdd_delete m1 with
      | .error f => .error f
      | .ok m2 => .ok (ret, m2)
    else .ok (ret, m1)

/-- The state `Closed`: no virtual disk is visible, no backing handle is
open, no major number is registered, and the counter is zero. -/
def Closed (m : Module) : Prop :=
  m.disks = [] ∧ m.handles = [] ∧ m.majors = [] ∧ m.sbdd.refs_cnt = 0

instance (m : Module) : Decidable (Closed m) := by
  unfold Closed
  infer_instance

/-! ## Interleavings

Any number of `sbdd_make_request` invocations and one `sbdd_delete`, run one
statement at a time in any order, together with the backing device completing
the clones it was given. The statements are the functions above. -/

/-- Where one invocation of `sbdd_make_request` stands. -/
inductive ReqPc where
  /-- called; line 75 is next -/
  | entry
  /-- line 75 read `deleting` as zero; line 80 is next -/
  | checked
  /-- line 80 added one to `refs_cnt`; lines 85-95 are next -/
  | admitted
  /-- the call of `submit_bio` returned `ret`; line 97 is next -/
  | submitted (ret : Nat)
  /-- line 101 returned `ret` -/
  | returned (ret : Nat)
  /-- line 77 or line 83 returned `BLK_STS_IOERR` -/
  | rejected
  deriving DecidableEq

/-- Where `sbdd_delete` stands. -/
inductive DelPc where
  /-- not called -/
  | idle
  /-- line 180 done -/
  | flagged
  /-- line 181 done; in `wait_event` -/
  | draining
  /-- the call of `wait_event` returned -/
  | drained
  /-- lines 185-196 done -/
  | disk_gone
  /-- lines 198-201 done: `blkdev_put` -/
  | handle_closed
  /-- lines 204-207 done: `memset` -/
  | zeroed
  /-- lines 209-213 done -/
  | finished
  deriving DecidableEq

/-- Position of a `DelPc` in the order of the statements of `sbdd_delete`. -/
def DelPc.rank : DelPc → Nat
  | .idle => 0
  | .flagged => 1
  | .draining => 2
  | .drained => 3
  | .disk_gone => 4
  | .handle_closed => 5
  | .zeroed => 6
  | .finished => 7

/-- The clone of a request, as the backing device sees it. -/
inductive CloneSt where
  | not_submitted
  | in_flight (clone : Bio)
  | completed (status : Nat)
  deriving DecidableEq

/-- One invocation of `sbdd_make_request`. The fields `read_at` and `admit_at`
are history: where `sbdd_delete` stood when this invocation executed line 75,
and when its line 80 added one to `refs_cnt`. -/
structure Req where
  pc : ReqPc
  bio : Bio
  clone : CloneSt
  read_at : Option DelPc
  admit_at : Option DelPc
  deriving DecidableEq

/-- A request handler that has just been called. -/
def Req.new (bio : Bio) : Req :=
  { pc := ReqPc.entry, bio := bio, clone := CloneSt.not_submitted,
    read_at := none, admit_at := none }

/-- Whether a request holds an admission slot: line 80 added one and line 97
has not yet subtracted it. -/
def Req.slot (r : Req) : Nat :=
  match r.pc with
  | .admitted => 1
  | .submitted _ => 1
  | _ => 0

/-- Number of admitted requests that have not yet released their slot. -/
def inSlot : List Req → Nat
  | [] => 0
  | r :: rs => r.slot + inSlot rs

/-- Number of clones submitted to the backing device and not yet completed. -/
def inFlight : List Req → Nat
  | [] => 0
  | r :: rs => (match r.clone with
                | .in_flight _ => 1
                | _ => 0) + inFlight rs

/-- The whole system. -/
structure Sys where
  m : Module
  reqs : List Req
  del : DelPc
  deriving DecidableEq

/-- The system right after `sbdd_create` left the module in state `m`. -/
def Sys.init (m : Module) : Sys := { m := m, reqs := [], del := DelPc.idle }

/-- One scheduling decision. -/
inductive Act where
  /-- a new invocation of `sbdd_make_request` -/
  | call (bio : Bio)
  /-- invocation `i` executes its next statement -/
  | req (i : Nat) (e : MrEnv)
  /-- the backing device completes the clone of invocation `i` -/
  | complete (i : Nat) (status : Nat)
  /-- the function `sbdd_delete` executes its next statement -/
  | del
  deriving DecidableEq

/-- The next statement of one invocation of `sbdd_make_request`; `none` when
it has returned (or dereferences NULL). -/
def req_step (m : Module) (del : DelPc) (r : Req) (e : MrEnv) : Option (Req × Module) :=
  match r.pc with
  | .entry =>
    if mr_deleting m then
      some ({ r with pc := ReqPc.rejected, bio := (mr_reject m r.bio).1, read_at := some del },
            (mr_reject m r.bio).2)
    else some ({ r with pc := ReqPc.checked, read_at := some del }, m)
  | .checked =>
    if (mr_inc_not_zero m).1 = false then
      some ({ r with pc := ReqPc.rejected, bio := (mr_reject (mr_inc_not_zero m).2 r.bio).1 },
            (mr_reject (mr_inc_not_zero m).2 r.bio).2)
    else some ({ r with pc := ReqPc.admitted, admit_at := some del }, (mr_inc_not_zero m).2)
  | .admitted =>
    match mr_clone m r.bio e with
    | none => none
    | some (clone, bio1) =>
      some ({ r with pc := ReqPc.submitted (mr_submit m clone e).1, bio := bio1,
                     clone := CloneSt.in_flight clone },
            (mr_submit m clone e).2)
  | .submitted ret => some ({ r with pc := ReqPc.returned ret }, mr_release m)
  | .returned _ => none
  | .rejected => none

/-- The next statement of `sbdd_delete`; `none` while `wait_event` sleeps and
after the function has returned. -/
def del_step (m : Module) : DelPc → Option (Module × DelPc)
  | .idle => some (del_set_deleting m, DelPc.flagged)
  | .flagged => some (del_dec m, DelPc.draining)
  | .draining => if wait_cond m then some (m, DelPc.drained) else none
  | .drained => some (del_disk m, DelPc.disk_gone)
  | .disk_gone => some (del_put m, DelPc.handle_closed)
  | .handle_closed => some (del_zero m, DelPc.zeroed)
  | .zeroed => some (del_unregister m, DelPc.finished)
  | .finished => none

/-- The call log after the backing device completed a clone with
`bio_endio`: it gains the end of the original when the original is ended. -/
def complete_log (m : Module) (res : Bio × Bool) : Module :=
  { m with log := m.log ++
      (if res.2 then [Event.bio_endio res.1.addr res.1.bi_status] else []) }

/-- The invocation after the backing device completed its clone. -/
def complete_req (r : Req) (status : Nat) (res : Bio × Bool) : Req :=
  { r with clone := CloneSt.completed status, bio := res.1 }

/-- One step of the system; `none` when the action is not enabled. -/
def step (s : Sys) : Act → Option Sys
  | .call bio => some { s with reqs := s.reqs ++ [Req.new bio] }
  | .req i e =>
    match s.reqs[i]? with
    | none => none
    | some r =>
      match req_step s.m s.del r e with
      | none => none
      | some (r1, m1) => some { s with m := m1, reqs := s.reqs.set i r1 }
  | .complete i status =>
    match s.reqs[i]? with
    | none => none
    | some r =>
      match r.clone with
      | .in_flight c =>
        some { s with m := complete_log s.m (bio_endio_child { c with bi_status := status } r.bio),
                      reqs := s.reqs.set i (complete_req r status
                        (bio_endio_child { c with bi_status := status } r.bio)) }
      | _ => none
  | .del =>
    match del_step s.m s.del with
    | none => none
    | some (m1, d1) => some { s with m := m1, del := d1 }

/-- Run a schedule; `none` when one of its actions is not enabled. -/
def run (s : Sys) : List Act → Option Sys
  | [] => some s
  | a :: as =>
    match step s a with
    | none => none
    | some s1 => run s1 as

/-- The initial unit of `refs_cnt`, held from `atomic_set(&__sbdd.refs_cnt, 1)`
until line 181 of `sbdd_delete` has run. -/
def open_unit (d : DelPc) : Int := if d.rank ≤ 1 then 1 else 0

/-- What holds of one invocation, given where `sbdd_delete` stands. -/
def ReqInv (del : DelPc) (r : Req) : Prop :=
  match r.pc with
  | .entry => r.read_at = none ∧ r.admit_at = none
  | .checked => r.admit_at = none ∧ (r.read_at = some DelPc.idle ∨ 6 ≤ del.rank)
  | .rejected => r.admit_at = none
  | _ => r.read_at = some DelPc.idle ∧ ∃ d, r.admit_at = some d ∧ d.rank ≤ 2

/-- The invariant of the interleavings that start after a successful
`sbdd_create`. -/
def Inv (s : Sys) : Prop :=
  s.m.sbdd.refs_cnt = open_unit s.del + inSlot s.reqs ∧
  (3 ≤ s.del.rank → inSlot s.reqs = 0) ∧
  (s.del.rank = 0 → s.m.sbdd.deleting = 0) ∧
  (1 ≤ s.del.rank → s.del.rank ≤ 5 → s.m.sbdd.deleting ≠ 0) ∧
  ∀ r ∈ s.reqs, ReqInv s.del r

/-- Few enough invocations hold a slot for the 32-bit counter `refs_cnt` not
to wrap at the next statement. -/
def Sys.bounded (s : Sys) : Bool := decide (inSlot s.reqs + 2 < 2147483648)

/-- Whether every state a schedule passes through, before each of its steps,
is `bounded`. -/
def within (s : Sys) : List Act → Bool
  | [] => true
  | a :: as =>
    s.bounded &&
      (match step s a with
       | none => true
       | some s1 => within s1 as)

/-- Whether line 80 of this invocation added one to `refs_cnt`. -/
def Req.wasAdmitted (r : Req) : Bool :=
  match r.pc with
  | .admitted => true
  | .submitted _ => true
  | .returned _ => true
  | _ => false

/-- The state a schedule leads to (the start state when it cannot run). -/
def runD (s : Sys) (sched : List Act) : Sys := (run s sched).getD s

/-! ## A concrete backing device -/

/-- A backing device of 1000 sectors with 512-byte logical blocks, and every
kernel call of `sbdd_create` succeeding. -/
def env1000 : Env :=
  { register_blkdev := 250, bioset_init := 0,
    blkdev_get_by_path := .ok { addr := 7, capacity := 1000, logical_block_size := 512 },
    blk_alloc_queue := some 8, alloc_disk := some 9 }

/-- The module state `sbdd_create` leaves with `env1000`. -/
def active1000 : Module :=
  { sbdd := { deleting := 0, refs_cnt := 1, capacity := 1000,
              gd := some { addr := 9, queue := some 8, major := 250, first_minor := 0,
                           disk_name := "sbdd", capacity := 1000 },
              q := some { addr := 8, make_request_fn := true, logical_block_size := 512 },
              dst_device := some { addr := 7, capacity := 1000, logical_block_size := 512 } },
    sbdd_major := 250, bio_set := true, majors := [250], handles := [7], disks := [9],
    log := [Event.register_blkdev 250, Event.bioset_init 0, Event.blkdev_get_by_path true,
            Event.blk_alloc_queue true, Event.alloc_disk true, Event.add_disk 9] }

/-- A write of 4096 bytes at sector 16 addressed to the virtual device. -/
def bioW : Bio :=
  { addr := 100, bi_dev := 9, bi_opf := 1, bi_sector := 16, bi_size := 4096, bi_io_vec := 555,
    bi_status := 0, bi_private := none, bi_end_io := EndIo.other 1, bi_remaining := 1,
    bi_chain := false }

/-- A read of 512 bytes at sector 0 addressed to the virtual device. -/
def bioR : Bio :=
  { addr := 200, bi_dev := 9, bi_opf := 0, bi_sector := 0, bi_size := 512, bi_io_vec := 777,
    bi_status := 0, bi_private := none, bi_end_io := EndIo.other 1, bi_remaining := 1,
    bi_chain := false }

/-- One request is admitted, its clone is submitted and its slot released;
then `sbdd_delete` runs up to and including `blkdev_put`. The clone never
completes. -/
def sched_close_early : List Act :=
  [Act.call bioW, Act.req 0 ⟨101, 0⟩, Act.req 0 ⟨101, 0⟩, Act.req 0 ⟨101, 0⟩,
   Act.req 0 ⟨101, 0⟩, Act.del, Act.del, Act.del, Act.del, Act.del]

/-- Request 0 is admitted; request 1 reads `deleting` as zero; `sbdd_delete`
executes lines 180 and 181; then request 1 executes line 80. -/
def sched_late_admit : List Act :=
  [Act.call bioW, Act.call bioR, Act.req 0 ⟨101, 0⟩, Act.req 0 ⟨101, 0⟩,
   Act.req 1 ⟨201, 0⟩, Act.del, Act.del, Act.req 1 ⟨201, 0⟩]

/-- Request 0 is admitted and submitted, `sbdd_delete` executes lines 180 and
181, and request 1 is called and reads `deleting`. -/
def sched_draining : List Act :=
  [Act.call bioW, Act.req 0 ⟨101, 0⟩, Act.req 0 ⟨101, 0⟩, Act.req 0 ⟨101, 0⟩,
   Act.del, Act.del, Act.call bioR, Act.req 1 ⟨201, 0⟩]

/-- Request 1 at the end of `sched_draining`: it read `deleting` after line
180 and was rejected at line 77. -/
def late_reader : Req :=
  { pc := ReqPc.rejected, bio := { bioR with bi_status := BLK_STS_IOERR },
    clone := CloneSt.not_submitted, read_at := some DelPc.draining, admit_at := none }

/-- One request is admitted, its clone is submitted and its slot released;
then the backing device completes the clone with status 0. -/
def sched_complete : List Act :=
  [Act.call bioW, Act.req 0 ⟨101, 0⟩, Act.req 0 ⟨101, 0⟩, Act.req 0 ⟨101, 0⟩,
   Act.req 0 ⟨101, 0⟩, Act.complete 0 0]

/-! ## Reading the call log -/

/-- The clones a stretch of the call log hands to `submit_bio`. -/
def submitted : List Event → List Bio
  | [] => []
  | .submit_bio c :: evs => c :: submitted evs
  | _ :: evs => submitted evs

/-- Number of `atomic_dec_and_test` calls in a stretch of the call log. -/
def releases : List Event → Nat
  | [] => 0
  | .dec_and_test _ :: evs => 1 + releases evs
  | _ :: evs => releases evs

/-- Number of successful `atomic_inc_not_zero` calls in a stretch of the call log. -/
def admissions : List Event → Nat
  | [] => 0
  | .inc_not_zero true :: evs => 1 + admissions evs
  | _ :: evs => admissions evs

/-- The clone `sbdd_make_request` builds for `bio` when the backing device is `d`. -/
def clone_of (bio : Bio) (e : MrEnv) (d : BlockDevice) : Bio :=
  (bio_chain (bio_set_dev (bio_clone_fast bio e.clone_addr) d) bio).1

/-- The caller's bio after `bio_chain` made it the parent of the clone. -/
def parent_of (bio : Bio) (e : MrEnv) (d : BlockDevice) : Bio :=
  (bio_chain (bio_set_dev (bio_clone_fast bio e.clone_addr) d) bio).2

/-! ## Theorems -/

theorem wrap32_of_isInt32 (x : Int) (h : isInt32 x) : wrap32 x = x := by
  unfold isInt32 at h
  unfold wrap32
  omega

theorem wrap32_inc_dec (x : Int) (h : isInt32 x) : wrap32 (wrap32 (x + 1) - 1) = x := by
  unfold isInt32 at h
  unfold wrap32
  omega

theorem submitted_submit_events (clone : Bio) (e : MrEnv) :
    submitted (submit_events clone e) = [clone] := by
  unfold submit_events
  split <;> simp [submitted]

theorem admissions_submit_events (clone : Bio) (e : MrEnv) :
    admissions (submit_events clone e) = 0 := by
  unfold submit_events
  split <;> simp [admissions]

theorem releases_submit_events (clone : Bio) (e : MrEnv) :
    releases (submit_events clone e) = 0 := by
  unfold submit_events
  split <;> simp [releases]

theorem submitted_release_events (v : Int) : submitted (release_events v) = [] := by
  unfold release_events
  split <;> simp [submitted]

theorem admissions_release_events (v : Int) : admissions (release_events v) = 0 := by
  unfold release_events
  split <;> simp [admissions]

theorem releases_release_events (v : Int) : releases (release_events v) = 1 := by
  unfold release_events
  split <;> simp [releases]

theorem submitted_append (xs ys : List Event) :
    submitted (xs ++ ys) = submitted xs ++ submitted ys := by
  induction xs with
  | nil => rfl
  | cons x xs ih => cases x <;> simp [submitted, ih]

theorem admissions_append (xs ys : List Event) :
    admissions (xs ++ ys) = admissions xs + admissions ys := by
  induction xs with
  | nil => simp [admissions]
  | cons x xs ih =>
    cases x with
    | inc_not_zero b => cases b <;> simp [admissions, ih]; omega
    | _ => simp [admissions, ih]

theorem releases_append (xs ys : List Event) :
    releases (xs ++ ys) = releases xs + releases ys := by
  induction xs with
  | nil => simp [releases]
  | cons x xs ih =>
    cases x with
    | dec_and_test b => simp [releases, ih]; omega
    | _ => simp [releases, ih]

/-- The admitted path of `sbdd_make_request`, when nothing else runs. -/
theorem make_request_admitted (m : Module) (bio : Bio) (e : MrEnv) (d : BlockDevice)
    (hd : m.sbdd.deleting = 0) (hr : m.sbdd.refs_cnt ≠ 0)
    (hdst : m.sbdd.dst_device = some d) :
    sbdd_make_request m bio e =
      some (e.submit_ret, parent_of bio e d,
        { m with
          sbdd := { m.sbdd with refs_cnt := wrap32 (wrap32 (m.sbdd.refs_cnt + 1) - 1) },
          log := m.log ++ ([Event.inc_not_zero true] ++
                   (submit_events (clone_of bio e d) e ++
                    release_events (wrap32 (m.sbdd.refs_cnt + 1)))) }) := by
  obtain ⟨⟨dl, rc, cap, gd, q, dst⟩, mj, bs, ms, hs, ds, lg⟩ := m
  simp only at hd hr hdst
  subst hd hdst
  simp [sbdd_make_request, mr_deleting, atomic_read, mr_inc_not_zero, atomic_inc_not_zero,
        mr_clone, mr_submit, mr_release, atomic_dec_and_test, hr, parent_of, clone_of]

/-- C5: a request that is admitted (`deleting` is zero and `refs_cnt` is not)
returns what `submit_bio` returned, whatever that is, and between its one
successful `atomic_inc_not_zero` and its return it calls `atomic_dec_and_test`
exactly once, so that `refs_cnt` is back at its value before the call. -/
theorem C5_slot_released_once (m : Module) (bio : Bio) (e : MrEnv) (d : BlockDevice)
    (hd : m.sbdd.deleting = 0) (hr : m.sbdd.refs_cnt ≠ 0) (hi : isInt32 m.sbdd.refs_cnt)
    (hdst : m.sbdd.dst_device = some d) :
    ∃ bio1 m1 evs, sbdd_make_request m bio e = some (e.submit_ret, bio1, m1) ∧
      m1.log = m.log ++ evs ∧ admissions evs = 1 ∧ releases evs = 1 ∧
      m1.sbdd.refs_cnt = m.sbdd.refs_cnt := by
  refine ⟨_, _, _, make_request_admitted m bio e d hd hr hdst, rfl, ?_, ?_, ?_⟩
  · simp only [admissions_append, admissions_submit_events, admissions_release_events]
    rfl
  · simp only [releases_append, releases_submit_events, releases_release_events]
    rfl
  · exact wrap32_inc_dec _ hi

/-- C5 at the state `sbdd_create` leaves, for a submission the backing device
refuses with status 10. -/
theorem C5_slot_released_once_witness :
    ∃ bio1 m1 evs, sbdd_make_request active1000 bioW ⟨101, 10⟩ = some (10, bio1, m1) ∧
      m1.log = active1000.log ++ evs ∧ admissions evs = 1 ∧ releases evs = 1 ∧
      m1.sbdd.refs_cnt = active1000.sbdd.refs_cnt :=
  C5_slot_released_once active1000 bioW ⟨101, 10⟩ ⟨7, 1000, 512⟩ rfl (by decide)
    (by decide) rfl

/-- What `sbdd_make_request` does with a request in the active state
(`deleting` zero, `refs_cnt` at least one, backing device `d` open): it returns
what `submit_bio` returned and hands `submit_bio` exactly one bio, a new
descriptor with the opcode, sector, size and buffers of the original, addressed
to `d` and chained to the original; it makes no other call on either bio, and
leaves the original with the flag `BIO_CHAIN` and one more in
`__bi_remaining`. -/
theorem active_request_forwarded (m : Module) (bio : Bio) (e : MrEnv) (d : BlockDevice)
    (hd : m.sbdd.deleting = 0) (hr : 1 ≤ m.sbdd.refs_cnt)
    (hdst : m.sbdd.dst_device = some d) (hnew : e.clone_addr ≠ bio.addr) :
    ∃ clone bio1 m1, sbdd_make_request m bio e = some (e.submit_ret, bio1, m1) ∧
      m1.log = m.log ++ ([Event.inc_not_zero true] ++ (submit_events clone e ++
        release_events (wrap32 (m.sbdd.refs_cnt + 1)))) ∧
      submitted (m1.log.drop m.log.length) = [clone] ∧
      clone.addr = e.clone_addr ∧ clone.addr ≠ bio.addr ∧
      clone.bi_opf = bio.bi_opf ∧ clone.bi_sector = bio.bi_sector ∧
      clone.bi_size = bio.bi_size ∧ clone.bi_io_vec = bio.bi_io_vec ∧
      clone.bi_dev = d.addr ∧
      clone.bi_private = some bio.addr ∧ clone.bi_end_io = EndIo.bio_chain_endio ∧
      bio1 = { bio with bi_remaining := wrap32 (bio.bi_remaining + 1), bi_chain := true } := by
  have hr0 : m.sbdd.refs_cnt ≠ 0 := by omega
  refine ⟨clone_of bio e d, _, _, make_request_admitted m bio e d hd hr0 hdst, rfl,
    ?_, rfl, hnew, rfl, rfl, rfl, rfl, rfl, rfl, rfl, rfl⟩
  simp only [List.drop_left, submitted_append, submitted_submit_events,
    submitted_release_events]
  rfl

theorem bio_remaining_done_of_two (p : Bio) (hc : p.bi_chain = true)
    (hr : p.bi_remaining = 2) :
    bio_remaining_done p = (false, { p with bi_remaining := 1 }) := by
  have h3 : wrap32 1 = 1 := by decide
  unfold bio_remaining_done
  simp [hc, hr, h3]

theorem bio_endio_child_of_two (c p : Bio) (hc : c.bi_chain = false)
    (he : c.bi_end_io = EndIo.bio_chain_endio)
    (hp1 : (bio_chain_endio c p).bi_chain = true)
    (hp2 : (bio_chain_endio c p).bi_remaining = 2) :
    bio_endio_child c p = ({ bio_chain_endio c p with bi_remaining := 1 }, false) := by
  have hdone : bio_remaining_done c = (true, c) := by
    simp [bio_remaining_done, hc]
  unfold bio_endio_child
  rw [hdone, bio_remaining_done_of_two _ hp1 hp2]
  simp [he]

/-- After `sbdd_make_request` chained its clone to an original that came with
`__bi_remaining` at 1, the `bio_endio` of the clone, whatever its status,
does not end the original: `__bi_remaining` goes from 2 to 1, not to zero. -/
theorem chained_original_not_ended (bio : Bio) (e : MrEnv) (d : BlockDevice) (status : Nat)
    (h1 : bio.bi_remaining = 1) :
    (bio_endio_child { clone_of bio e d with bi_status := status } (parent_of bio e d)).2
      = false ∧
    (bio_endio_child { clone_of bio e d with bi_status := status }
      (parent_of bio e d)).1.bi_remaining = 1 := by
  have h2 : wrap32 2 = 2 := by decide
  have hp : (bio_chain_endio { clone_of bio e d with bi_status := status }
        (parent_of bio e d)).bi_chain = true ∧
      (bio_chain_endio { clone_of bio e d with bi_status := status }
        (parent_of bio e d)).bi_remaining = 2 := by
    unfold bio_chain_endio
    split <;> simp [parent_of, bio_chain, h1, h2]
  rw [bio_endio_child_of_two _ _ rfl rfl hp.1 hp.2]
  exact ⟨rfl, rfl⟩

/-- C6: a write in the active state is admitted and forwarded (one new
descriptor goes to `submit_bio`, chained to the original, and the value
`submit_bio` returned is returned), but the original is never ended:
`sbdd_make_request` makes no `bio_endio` call on it and leaves its
`__bi_remaining` at 2, so the `bio_endio` of the clone, with any status, only
brings it to 1. The run in which the backing device completes the clone ends
with no `bio_endio` of the original in the call log. -/
theorem C6_original_never_ended :
    sbdd_create env1000 Module.zero = .ok (0, active1000) ∧
    sbdd_make_request active1000 bioW ⟨101, 0⟩ =
      some (0, { bioW with bi_remaining := 2, bi_chain := true },
        { active1000 with log := active1000.log ++
            [Event.inc_not_zero true,
             Event.submit_bio (clone_of bioW ⟨101, 0⟩ ⟨7, 1000, 512⟩),
             Event.dec_and_test false] }) ∧
    (clone_of bioW ⟨101, 0⟩ ⟨7, 1000, 512⟩).addr = 101 ∧ bioW.addr = 100 ∧
    (clone_of bioW ⟨101, 0⟩ ⟨7, 1000, 512⟩).bi_private = some 100 ∧
    (∀ status,
      bio_endio_child { clone_of bioW ⟨101, 0⟩ ⟨7, 1000, 512⟩ with bi_status := status }
        { bioW with bi_remaining := 2, bi_chain := true } =
      ({ bioW with bi_status := status, bi_remaining := 1, bi_chain := true }, false)) ∧
    ∃ s, run (Sys.init active1000) sched_complete = some s ∧
      s.reqs.map Req.clone = [CloneSt.completed 0] ∧
      s.reqs.map Req.pc = [ReqPc.returned 0] ∧
      s.reqs.map Req.bio = [{ bioW with bi_remaining := 1, bi_chain := true }] ∧
      s.m.log = active1000.log ++
        [Event.inc_not_zero true,
         Event.submit_bio (clone_of bioW ⟨101, 0⟩ ⟨7, 1000, 512⟩),
         Event.dec_and_test false] := by
  refine ⟨rfl, rfl, rfl, rfl, rfl, ?_, _, rfl, rfl, rfl, rfl, rfl⟩
  intro status
  have hp : bio_chain_endio { clone_of bioW ⟨101, 0⟩ ⟨7, 1000, 512⟩ with bi_status := status }
      { bioW with bi_remaining := 2, bi_chain := true }
      = { bioW with bi_status := status, bi_remaining := 2, bi_chain := true } := rfl
  rw [bio_endio_child_of_two _ _ rfl rfl (by rw [hp]) (by rw [hp]), hp]

/-- What a successful `sbdd_create` leaves behind. -/
theorem sbdd_create_ok (env : Env) (m0 m : Module)
    (hc : sbdd_create env m0 = .ok (0, m)) :
    ∃ d qa ga, env.blkdev_get_by_path = .ok d ∧ env.blk_alloc_queue = some qa ∧
      env.alloc_disk = some ga ∧ 0 ≤ env.register_blkdev ∧ env.bioset_init = 0 ∧
      m = { sbdd := { deleting := 0, refs_cnt := 1, capacity := d.capacity,
                      gd := some { addr := ga, queue := some qa, major := env.register_blkdev,
                                   first_minor := 0, disk_name := "sbdd",
                                   capacity := d.capacity },
                      q := some { addr := qa, make_request_fn := true,
                                  logical_block_size := d.logical_block_size },
                      dst_device := some d },
            sbdd_major := env.register_blkdev, bio_set := true,
            majors := if 0 < env.register_blkdev then env.register_blkdev :: m0.majors
                      else m0.majors,
            handles := d.addr :: m0.handles, disks := ga :: m0.disks,
            log := m0.log ++ [Event.register_blkdev env.register_blkdev,
                     Event.bioset_init env.bioset_init, Event.blkdev_get_by_path true,
                     Event.blk_alloc_queue true, Event.alloc_disk true, Event.add_disk ga] } := by
  unfold sbdd_create at hc
  simp only [create_register, create_bioset, init_dst_device] at hc
  by_cases h1 : env.register_blkdev < 0
  · simp [h1, EBUSY] at hc
  · by_cases h2 : env.bioset_init = 0
    · cases h3 : env.blkdev_get_by_path with
      | error e =>
        simp [h1, h2, h3] at hc
        by_cases h4 : e = 0
        · simp [h4, SbddDev.zero] at hc
        · simp [h4] at hc
      | ok d =>
        cases h5 : env.blk_alloc_queue with
        | none => simp [h1, h2, h3, h5, EINVAL] at hc
        | some qa =>
          cases h6 : env.alloc_disk with
          | none => simp [h1, h2, h3, h5, h6] at hc
          | some ga =>
            simp [h1, h2, h3, h5, h6, create_finish, SbddDev.zero] at hc
            refine ⟨d, qa, ga, rfl, rfl, rfl, by omega, h2, ?_⟩
            rw [← hc]
            simp [h2]
    · simp [h1, h2] at hc

/-- The function `sbdd_make_request` leaves gendisk and queue as they are. -/
theorem make_request_keeps_geometry (m1 : Module) (bio : Bio) (e : MrEnv)
    (r : Nat × Bio × Module) (hr : sbdd_make_request m1 bio e = some r) :
    r.2.2.sbdd.gd = m1.sbdd.gd ∧ r.2.2.sbdd.q = m1.sbdd.q := by
  unfold sbdd_make_request at hr
  split at hr
  · cases hr; exact ⟨rfl, rfl⟩
  · split at hr
    · cases hr; exact ⟨rfl, rfl⟩
    · split at hr
      · cases hr
      · cases hr; exact ⟨rfl, rfl⟩

/-- C10: after a successful `sbdd_create` over the backing device `d` the
gendisk's capacity is the capacity of `d` and the queue's logical block size is
that of `d`, and `sbdd_make_request` leaves gendisk and queue as they are. -/
theorem C10_geometry_copied (env : Env) (m : Module) (d : BlockDevice)
    (ho : env.blkdev_get_by_path = .ok d)
    (hc : sbdd_create env Module.zero = .ok (0, m)) :
    m.sbdd.gd.map Gendisk.capacity = some d.capacity ∧
    m.sbdd.q.map RequestQueue.logical_block_size = some d.logical_block_size ∧
    ∀ (m1 : Module) (bio : Bio) (e : MrEnv) (r : Nat × Bio × Module),
      sbdd_make_request m1 bio e = some r →
        r.2.2.sbdd.gd = m1.sbdd.gd ∧ r.2.2.sbdd.q = m1.sbdd.q := by
  obtain ⟨d1, qa, ga, h1, -, -, -, -, hm⟩ := sbdd_create_ok env Module.zero m hc
  rw [ho] at h1
  cases h1
  subst hm
  exact ⟨rfl, rfl, make_request_keeps_geometry⟩

/-- C10 for a backing device of 1000 sectors and 512-byte blocks. -/
theorem C10_geometry_copied_witness :
    active1000.sbdd.gd.map Gendisk.capacity = some 1000 ∧
    active1000.sbdd.q.map RequestQueue.logical_block_size = some 512 ∧
    ∀ (m1 : Module) (bio : Bio) (e : MrEnv) (r : Nat × Bio × Module),
      sbdd_make_request m1 bio e = some r →
        r.2.2.sbdd.gd = m1.sbdd.gd ∧ r.2.2.sbdd.q = m1.sbdd.q :=
  C10_geometry_copied env1000 active1000 ⟨7, 1000, 512⟩ rfl rfl

/-- The function `sbdd_delete` when exactly the initial unit is held. -/
theorem sbdd_delete_idle (m : Module) (gd : Gendisk) (q : RequestQueue) (d : BlockDevice)
    (hr : m.sbdd.refs_cnt = 1) (hgd : m.sbdd.gd = some gd) (hq : m.sbdd.q = some q)
    (hd : m.sbdd.dst_device = some d) (hmaj : 0 < m.sbdd_major) :
    sbdd_delete m = .ok
      { sbdd := SbddDev.zero, sbdd_major := 0, bio_set := false,
        majors := m.majors.erase m.sbdd_major, handles := m.handles.erase d.addr,
        disks := m.disks.erase gd.addr,
        log := m.log ++ [Event.dec_if_positive, Event.del_gendisk gd.addr,
          Event.blk_cleanup_queue q.addr, Event.put_disk gd.addr, Event.blkdev_put d.addr,
          Event.bioset_exit, Event.unregister_blkdev m.sbdd_major] } := by
  obtain ⟨⟨dl, rc, cap, gd0, q0, dst⟩, mj, bs, ms, hs, ds, lg⟩ := m
  simp only at hr hgd hq hd hmaj
  subst hr hgd hq hd
  have hdec : atomic_dec_if_positive 1 = 0 := by decide
  simp [sbdd_delete, wait_cond, atomic_read, del_dec, del_set_deleting, hdec, del_unregister,
    del_zero, del_put, del_disk, hmaj]

/-- C9: from the state a successful `sbdd_create` leaves (`refs_cnt` is 1),
`sbdd_delete` brings `refs_cnt` to zero so that the condition of `wait_event`
holds when first checked, returns, calls `del_gendisk` before `blkdev_put`, and
leaves `__sbdd` zeroed, the major number unregistered, no disk visible and no
handle open. -/
theorem C9_idle_teardown (env : Env) (m : Module)
    (hv : env.valid) (hc : sbdd_create env Module.zero = .ok (0, m)) :
    m.sbdd.refs_cnt = 1 ∧
    (del_dec (del_set_deleting m)).sbdd.refs_cnt = 0 ∧
    wait_cond (del_dec (del_set_deleting m)) = true ∧
    ∃ m1 gd q d, sbdd_delete m = .ok m1 ∧
      m.sbdd.gd = some gd ∧ m.sbdd.q = some q ∧ m.sbdd.dst_device = some d ∧
      m1.log = m.log ++ [Event.dec_if_positive, Event.del_gendisk gd.addr,
        Event.blk_cleanup_queue q.addr, Event.put_disk gd.addr, Event.blkdev_put d.addr,
        Event.bioset_exit, Event.unregister_blkdev m.sbdd_major] ∧
      m1.sbdd = SbddDev.zero ∧ m1.sbdd_major = 0 ∧
      m1.majors = [] ∧ m1.disks = [] ∧ m1.handles = [] := by
  obtain ⟨d, qa, ga, h1, -, -, hreg, -, hm⟩ := sbdd_create_ok env Module.zero m hc
  have hpos : 0 < env.register_blkdev := by
    have := hv.1
    omega
  have hr : m.sbdd.refs_cnt = 1 := by rw [hm]
  have hgd : m.sbdd.gd = some ⟨ga, some qa, env.register_blkdev, 0, "sbdd", d.capacity⟩ := by
    rw [hm]
  have hq : m.sbdd.q = some ⟨qa, true, d.logical_block_size⟩ := by rw [hm]
  have hd : m.sbdd.dst_device = some d := by rw [hm]
  have hmaj : m.sbdd_major = env.register_blkdev := by rw [hm]
  have hdec : atomic_dec_if_positive 1 = 0 := by decide
  refine ⟨hr, ?_, ?_, ?_⟩
  · simp [del_dec, del_set_deleting, hr, hdec]
  · simp [wait_cond, atomic_read, del_dec, del_set_deleting, hr, hdec]
  · exact ⟨_, _, _, _, sbdd_delete_idle m _ _ d hr hgd hq hd (by omega), hgd, hq, hd, rfl, rfl,
      rfl, by simp [hm, hpos, Module.zero], by simp [hm, Module.zero],
      by simp [hm, Module.zero]⟩

/-- C9 for the device of `env1000`. -/
theorem C9_idle_teardown_witness :
    active1000.sbdd.refs_cnt = 1 ∧
    (del_dec (del_set_deleting active1000)).sbdd.refs_cnt = 0 ∧
    wait_cond (del_dec (del_set_deleting active1000)) = true ∧
    ∃ m1 gd q d, sbdd_delete active1000 = .ok m1 ∧
      active1000.sbdd.gd = some gd ∧ active1000.sbdd.q = some q ∧
      active1000.sbdd.dst_device = some d ∧
      m1.log = active1000.log ++ [Event.dec_if_positive, Event.del_gendisk gd.addr,
        Event.blk_cleanup_queue q.addr, Event.put_disk gd.addr, Event.blkdev_put d.addr,
        Event.bioset_exit, Event.unregister_blkdev active1000.sbdd_major] ∧
      m1.sbdd = SbddDev.zero ∧ m1.sbdd_major = 0 ∧
      m1.majors = [] ∧ m1.disks = [] ∧ m1.handles = [] :=
  C9_idle_teardown env1000 active1000 ⟨by decide, by decide, trivial⟩ rfl

/-- C8: when `register_blkdev` and `bioset_init` succeed and opening the backing
device fails with `e`, `sbdd_init` returns `e`; its kernel calls are exactly
`register_blkdev`, `bioset_init`, the failed open, `atomic_dec_if_positive`,
`bioset_exit` and `unregister_blkdev` of the major it registered, so that it
calls none of `add_disk`, `del_gendisk`, `blkdev_put`; the condition of
`wait_event` holds when first checked; and the state it leaves is closed. -/
theorem C8_open_failure (env : Env) (e : Int)
    (hreg : 0 < env.register_blkdev) (hb : env.bioset_init = 0)
    (ho : env.blkdev_get_by_path = .error e) (he : -MAX_ERRNO ≤ e ∧ e ≤ -1) :
    ∃ m1 m, sbdd_create env Module.zero = .ok (e, m1) ∧
      m1.sbdd.refs_cnt = 0 ∧ wait_cond (del_dec (del_set_deleting m1)) = true ∧
      sbdd_init env Module.zero = .ok (e, m) ∧
      m.log = [Event.register_blkdev env.register_blkdev, Event.bioset_init 0,
        Event.blkdev_get_by_path false, Event.dec_if_positive, Event.bioset_exit,
        Event.unregister_blkdev env.register_blkdev] ∧
      (∀ g, Event.add_disk g ∉ m.log ∧ Event.del_gendisk g ∉ m.log) ∧
      (∀ b, Event.blkdev_put b ∉ m.log) ∧
      Closed m := by
  have hn : ¬ env.register_blkdev < 0 := by omega
  have he0 : e ≠ 0 := by omega
  have hdec : atomic_dec_if_positive 0 = 0 := by decide
  have hcreate : sbdd_create env Module.zero = .ok (e,
      { sbdd := SbddDev.zero, sbdd_major := env.register_blkdev, bio_set := true,
        majors := [env.register_blkdev], handles := [], disks := [],
        log := [Event.register_blkdev env.register_blkdev, Event.bioset_init 0,
          Event.blkdev_get_by_path false] }) := by
    simp [sbdd_create, create_register, create_bioset, init_dst_device, hn, hb, ho, he0, hreg,
      Module.zero]
  refine ⟨_, ⟨SbddDev.zero, 0, false, [], [], [],
      [Event.register_blkdev env.register_blkdev, Event.bioset_init 0,
        Event.blkdev_get_by_path false, Event.dec_if_positive, Event.bioset_exit,
        Event.unregister_blkdev env.register_blkdev]⟩, hcreate, rfl, ?_, ?_, ?_, ?_, ?_, ?_⟩
  · simp [wait_cond, atomic_read, del_dec, del_set_deleting, SbddDev.zero, hdec]
  · simp [sbdd_init, hcreate, he0, sbdd_delete, wait_cond, atomic_read, del_dec,
      del_set_deleting, SbddDev.zero, hdec, del_unregister, del_zero, del_put, del_disk, hreg]
  · rfl
  · intro g
    simp
  · intro b
    simp
  · simp [Closed, SbddDev.zero]

/-- C8 for an open that fails with `-ENOENT`. -/
theorem C8_open_failure_witness :
    ∃ m1 m, sbdd_create { env1000 with blkdev_get_by_path := .error (-2) } Module.zero
        = .ok (-2, m1) ∧
      m1.sbdd.refs_cnt = 0 ∧ wait_cond (del_dec (del_set_deleting m1)) = true ∧
      sbdd_init { env1000 with blkdev_get_by_path := .error (-2) } Module.zero = .ok (-2, m) ∧
      m.log = [Event.register_blkdev 250, Event.bioset_init 0,
        Event.blkdev_get_by_path false, Event.dec_if_positive, Event.bioset_exit,
        Event.unregister_blkdev 250] ∧
      (∀ g, Event.add_disk g ∉ m.log ∧ Event.del_gendisk g ∉ m.log) ∧
      (∀ b, Event.blkdev_put b ∉ m.log) ∧
      Closed m :=
  C8_open_failure { env1000 with blkdev_get_by_path := .error (-2) } (-2)
    (by decide) rfl rfl (by decide)

/-- C7: when `alloc_disk` returns NULL after every earlier step of `sbdd_create`
succeeded, `sbdd_create` dereferences the NULL gendisk at line 159 and
`sbdd_init` returns nothing; the handle and the major number it obtained stay
held. -/
theorem C7_alloc_disk_failure_faults :
    sbdd_create { env1000 with alloc_disk := none } Module.zero = .error Fault.null_deref ∧
    sbdd_init { env1000 with alloc_disk := none } Module.zero = .error Fault.null_deref :=
  ⟨rfl, rfl⟩

/-- The four failures `sbdd_create` checks for (`register_blkdev`, `bioset_init`,
the open, `blk_alloc_queue`) make `sbdd_init` return a non-zero error after a
rollback that ends in the closed state. -/
theorem checked_failures_roll_back (env : Env) (hv : env.valid)
    (hf : env.register_blkdev < 0 ∨ env.bioset_init ≠ 0 ∨
      (∃ e, env.blkdev_get_by_path = .error e) ∨ env.blk_alloc_queue = none) :
    ∃ ret m, sbdd_init env Module.zero = .ok (ret, m) ∧ ret ≠ 0 ∧ Closed m ∧
      ∀ g, Event.add_disk g ∉ m.log := by
  obtain ⟨hv1, hv2, hv3⟩ := hv
  have hdec : atomic_dec_if_positive 0 = 0 := by decide
  by_cases h1 : env.register_blkdev < 0
  · have h1n : ¬ 0 < env.register_blkdev := by omega
    refine ⟨-EBUSY, ⟨SbddDev.zero, env.register_blkdev, false, [], [], [],
      [Event.register_blkdev env.register_blkdev, Event.dec_if_positive, Event.bioset_exit]⟩,
      ?_, by decide, ?_, ?_⟩
    · simp [sbdd_init, sbdd_create, create_register, h1, h1n, EBUSY, sbdd_delete, wait_cond,
        atomic_read, del_dec, del_set_deleting, hdec, Module.zero, SbddDev.zero, del_unregister,
        del_zero, del_put, del_disk]
    · simp [Closed, SbddDev.zero]
    · intro g; simp
  · have hpos : 0 < env.register_blkdev := by omega
    by_cases h2 : env.bioset_init = 0
    · cases h3 : env.blkdev_get_by_path with
      | error e =>
        rw [h3] at hv3
        have he0 : e ≠ 0 := by
          have := hv3.2
          omega
        refine ⟨e, ⟨SbddDev.zero, 0, false, [], [], [],
          [Event.register_blkdev env.register_blkdev, Event.bioset_init 0,
            Event.blkdev_get_by_path false, Event.dec_if_positive, Event.bioset_exit,
            Event.unregister_blkdev env.register_blkdev]⟩, ?_, he0, ?_, ?_⟩
        · simp [sbdd_init, sbdd_create, create_register, create_bioset, init_dst_device, h1,
            h2, h3, he0, hpos, sbdd_delete, wait_cond, atomic_read, del_dec, del_set_deleting,
            hdec, Module.zero, SbddDev.zero, del_unregister, del_zero, del_put, del_disk]
        · simp [Closed, SbddDev.zero]
        · intro g; simp
      | ok d =>
        have h4 : env.blk_alloc_queue = none := by
          rcases hf with hf | hf | hf | hf
          · exact absurd hf h1
          · exact absurd h2 hf
          · obtain ⟨e, he⟩ := hf
            rw [h3] at he
            cases he
          · exact hf
        refine ⟨-EINVAL, ⟨SbddDev.zero, 0, false, [], [], [],
          [Event.register_blkdev env.register_blkdev, Event.bioset_init 0,
            Event.blkdev_get_by_path true, Event.blk_alloc_queue false, Event.dec_if_positive,
            Event.blkdev_put d.addr, Event.bioset_exit,
            Event.unregister_blkdev env.register_blkdev]⟩, ?_, by decide, ?_, ?_⟩
        · simp [sbdd_init, sbdd_create, create_register, create_bioset, init_dst_device, h1,
            h2, h3, h4, hpos, EINVAL, sbdd_delete, wait_cond, atomic_read, del_dec,
            del_set_deleting, hdec, Module.zero, SbddDev.zero, del_unregister, del_zero, del_put,
            del_disk]
        · simp [Closed, SbddDev.zero]
        · intro g; simp
    · refine ⟨env.bioset_init, ⟨SbddDev.zero, 0, false, [], [], [],
        [Event.register_blkdev env.register_blkdev, Event.bioset_init env.bioset_init,
          Event.dec_if_positive, Event.bioset_exit,
          Event.unregister_blkdev env.register_blkdev]⟩, ?_, h2, ?_, ?_⟩
      · simp [sbdd_init, sbdd_create, create_register, create_bioset, h1, h2, hpos, sbdd_delete,
          wait_cond, atomic_read, del_dec, del_set_deleting, hdec, Module.zero, SbddDev.zero,
          del_unregister, del_zero, del_put, del_disk]
      · simp [Closed, SbddDev.zero]
      · intro g; simp

/-! ### The invariant of the interleavings -/

theorem inSlot_append (xs ys : List Req) : inSlot (xs ++ ys) = inSlot xs + inSlot ys := by
  induction xs with
  | nil => simp [inSlot]
  | cons x xs ih => simp [inSlot, ih]; omega

theorem inSlot_le_length (xs : List Req) : inSlot xs ≤ xs.length := by
  induction xs with
  | nil => simp [inSlot]
  | cons x xs ih =>
    have : x.slot ≤ 1 := by
      unfold Req.slot
      split <;> omega
    simp [inSlot]
    omega

theorem inSlot_set (xs : List Req) (i : Nat) (r r1 : Req) (h : xs[i]? = some r) :
    inSlot (xs.set i r1) + r.slot = inSlot xs + r1.slot := by
  induction xs generalizing i with
  | nil => simp at h
  | cons x xs ih =>
    cases i with
    | zero =>
      simp at h
      subst h
      simp [inSlot]
      omega
    | succ i =>
      simp at h
      have := ih i h
      simp [inSlot]
      omega

theorem forall_mem_set {P : Req → Prop} (xs : List Req) (i : Nat) (r1 : Req)
    (h : ∀ r ∈ xs, P r) (h1 : P r1) : ∀ r ∈ xs.set i r1, P r := by
  intro r hr
  rcases List.mem_or_eq_of_mem_set hr with hr | hr
  · exact h r hr
  · rw [hr]; exact h1

theorem mem_of_getElem_some (xs : List Req) (i : Nat) (r : Req) (h : xs[i]? = some r) : r ∈ xs := by
  rw [List.getElem?_eq_some] at h
  obtain ⟨hi, rfl⟩ := h
  exact List.getElem_mem hi

theorem rank_eq_zero (d : DelPc) (h : d.rank = 0) : d = DelPc.idle := by
  cases d <;> simp [DelPc.rank] at h ⊢

theorem ReqInv_mono (d d1 : DelPc) (r : Req) (h : d.rank ≤ d1.rank) (hr : ReqInv d r) :
    ReqInv d1 r := by
  unfold ReqInv at hr ⊢
  split
  next hpc => rw [hpc] at hr; exact hr
  next hpc =>
    rw [hpc] at hr
    refine ⟨hr.1, ?_⟩
    rcases hr.2 with h1 | h1
    · exact Or.inl h1
    · exact Or.inr (by omega)
  next hpc => rw [hpc] at hr; exact hr
  next h1 h2 h3 =>
    split at hr
    next hpc => exact absurd hpc h1
    next hpc => exact absurd hpc h2
    next hpc => exact absurd hpc h3
    next => exact hr

theorem slot_le_inSlot (xs : List Req) (i : Nat) (r : Req) (h : xs[i]? = some r) :
    r.slot ≤ inSlot xs := by
  induction xs generalizing i with
  | nil => simp at h
  | cons x xs ih =>
    cases i with
    | zero =>
      simp at h
      subst h
      simp [inSlot]
    | succ i =>
      simp at h
      have := ih i h
      simp [inSlot]
      omega

theorem open_unit_cases (d : DelPc) :
    (d.rank ≤ 1 ∧ open_unit d = 1) ∨ (2 ≤ d.rank ∧ open_unit d = 0) := by
  unfold open_unit
  split
  · left; exact ⟨by assumption, rfl⟩
  · right; exact ⟨by omega, rfl⟩

theorem mr_inc_not_zero_refs_zero (m : Module) (h : m.sbdd.refs_cnt = 0) :
    (mr_inc_not_zero m).1 = false ∧ (mr_inc_not_zero m).2.sbdd.refs_cnt = 0 := by
  simp [mr_inc_not_zero, atomic_inc_not_zero, h]

theorem mr_inc_not_zero_refs_ne (m : Module) (h : m.sbdd.refs_cnt ≠ 0) :
    (mr_inc_not_zero m).1 = true ∧ (mr_inc_not_zero m).2.sbdd.refs_cnt = wrap32 (m.sbdd.refs_cnt + 1) := by
  simp [mr_inc_not_zero, atomic_inc_not_zero, h]

/-- The invariant survives a change of one invocation and of the module
state that keeps the balance between `refs_cnt` and the slots held. -/
theorem inv_req_update (s : Sys) (i : Nat) (r r1 : Req) (m1 : Module)
    (hget : s.reqs[i]? = some r) (hinv : Inv s)
    (hrefs : m1.sbdd.refs_cnt + r.slot = s.m.sbdd.refs_cnt + r1.slot)
    (hdel : m1.sbdd.deleting = s.m.sbdd.deleting)
    (hB1 : 3 ≤ s.del.rank → r1.slot = 0)
    (hri : ReqInv s.del r1) :
    Inv { s with m := m1, reqs := s.reqs.set i r1 } := by
  obtain ⟨hA, hB, hC0, hC1, hD⟩ := hinv
  have hset := inSlot_set s.reqs i r r1 hget
  refine ⟨?_, ?_, ?_, ?_, ?_⟩
  · show m1.sbdd.refs_cnt = open_unit s.del + (inSlot (s.reqs.set i r1) : Int)
    omega
  · intro h
    show inSlot (s.reqs.set i r1) = 0
    have h1 := hB h
    have h2 := hB1 h
    omega
  · intro h
    show m1.sbdd.deleting = 0
    rw [hdel]; exact hC0 h
  · intro h1 h2
    show m1.sbdd.deleting ≠ 0
    rw [hdel]; exact hC1 h1 h2
  · exact forall_mem_set _ _ _ hD hri

theorem inv_req_step (s : Sys) (i : Nat) (e : MrEnv) (r r1 : Req) (m1 : Module)
    (hget : s.reqs[i]? = some r) (hstep : req_step s.m s.del r e = some (r1, m1))
    (hinv : Inv s) (hb : s.bounded = true) :
    Inv { s with m := m1, reqs := s.reqs.set i r1 } := by
  have hinv0 := hinv
  obtain ⟨hA, hB, hC0, hC1, hD⟩ := hinv
  have hr := hD r (mem_of_getElem_some _ _ _ hget)
  have hsl := slot_le_inSlot s.reqs i r hget
  have hu := open_unit_cases s.del
  simp only [Sys.bounded, decide_eq_true_eq] at hb
  unfold req_step at hstep
  unfold ReqInv at hr
  split at hstep
  next hpc =>
    -- line 75
    rw [hpc] at hr
    have hslot : r.slot = 0 := by simp [Req.slot, hpc]
    split at hstep
    next hdel =>
      simp only [Option.some.injEq, Prod.mk.injEq] at hstep
      obtain ⟨h1, h2⟩ := hstep
      have hs1 : r1.slot = 0 := by rw [← h1]; rfl
      have hm : m1.sbdd = s.m.sbdd := by rw [← h2]; rfl
      refine inv_req_update s i r r1 m1 hget hinv0 (by rw [hm, hslot, hs1]) (by rw [hm])
        (fun _ => hs1) ?_
      rw [← h1]
      simp [ReqInv, hr.2]
    next hdel =>
      simp only [Option.some.injEq, Prod.mk.injEq] at hstep
      obtain ⟨h1, h2⟩ := hstep
      have hs1 : r1.slot = 0 := by rw [← h1]; rfl
      have hz : s.m.sbdd.deleting = 0 := by
        simpa [mr_deleting, atomic_read] using hdel
      refine inv_req_update s i r r1 m1 hget hinv0 (by rw [← h2, hslot, hs1]) (by rw [← h2])
        (fun _ => hs1) ?_
      rw [← h1]
      simp only [ReqInv]
      refine ⟨hr.2, ?_⟩
      by_cases h0 : s.del.rank = 0
      · left; rw [rank_eq_zero _ h0]
      · right
        by_contra h6
        exact hC1 (by omega) (by omega) hz
  next hpc =>
    -- line 80
    rw [hpc] at hr
    have hslot : r.slot = 0 := by simp [Req.slot, hpc]
    split at hstep
    next hadm =>
      simp only [Option.some.injEq, Prod.mk.injEq] at hstep
      obtain ⟨h1, h2⟩ := hstep
      have hs1 : r1.slot = 0 := by rw [← h1]; rfl
      have hz : s.m.sbdd.refs_cnt = 0 := by
        by_contra hne
        rw [(mr_inc_not_zero_refs_ne _ hne).1] at hadm
        cases hadm
      have hm : m1.sbdd.refs_cnt = 0 := by
        rw [← h2]; exact (mr_inc_not_zero_refs_zero _ hz).2
      have hmd : m1.sbdd.deleting = s.m.sbdd.deleting := by rw [← h2]; rfl
      refine inv_req_update s i r r1 m1 hget hinv0 (by rw [hm, hz, hslot, hs1]) hmd
        (fun _ => hs1) ?_
      rw [← h1]
      simp [ReqInv, hr.1]
    next hadm =>
      simp only [Option.some.injEq, Prod.mk.injEq] at hstep
      obtain ⟨h1, h2⟩ := hstep
      have hs1 : r1.slot = 1 := by rw [← h1]; rfl
      have hnz : s.m.sbdd.refs_cnt ≠ 0 := by
        intro hz
        exact hadm (mr_inc_not_zero_refs_zero _ hz).1
      have hrank : s.del.rank ≤ 2 := by
        by_contra h3
        have h0 := hB (by omega)
        omega
      have hw : wrap32 (s.m.sbdd.refs_cnt + 1) = s.m.sbdd.refs_cnt + 1 :=
        wrap32_of_isInt32 _ (by unfold isInt32; omega)
      have hm : m1.sbdd.refs_cnt = s.m.sbdd.refs_cnt + 1 := by
        rw [← h2, (mr_inc_not_zero_refs_ne _ hnz).2, hw]
      have hmd : m1.sbdd.deleting = s.m.sbdd.deleting := by rw [← h2]; rfl
      refine inv_req_update s i r r1 m1 hget hinv0 (by rw [hm, hslot, hs1]; simp) hmd
        (fun h => by omega) ?_
      rw [← h1]
      simp only [ReqInv]
      refine ⟨?_, s.del, rfl, hrank⟩
      rcases hr.2 with h1 | h1
      · exact h1
      · omega
  next hpc =>
    -- lines 85-95
    rw [hpc] at hr
    have hslot : r.slot = 1 := by simp [Req.slot, hpc]
    split at hstep
    next => cases hstep
    next clone bio1 hcl =>
      simp only [Option.some.injEq, Prod.mk.injEq] at hstep
      obtain ⟨h1, h2⟩ := hstep
      have hs1 : r1.slot = 1 := by rw [← h1]; rfl
      have hm : m1.sbdd = s.m.sbdd := by rw [← h2]; rfl
      refine inv_req_update s i r r1 m1 hget hinv0 (by rw [hm, hslot, hs1]) (by rw [hm])
        (fun h => by have := hB h; omega) ?_
      rw [← h1]
      simpa [ReqInv] using hr
  next ret hpc =>
    -- lines 97-101
    rw [hpc] at hr
    have hslot : r.slot = 1 := by simp [Req.slot, hpc]
    simp only [Option.some.injEq, Prod.mk.injEq] at hstep
    obtain ⟨h1, h2⟩ := hstep
    have hs1 : r1.slot = 0 := by rw [← h1]; rfl
    have hw : wrap32 (s.m.sbdd.refs_cnt - 1) = s.m.sbdd.refs_cnt - 1 :=
      wrap32_of_isInt32 _ (by unfold isInt32; omega)
    have hm : m1.sbdd.refs_cnt = s.m.sbdd.refs_cnt - 1 := by
      rw [← h2, ← hw]; rfl
    have hmd : m1.sbdd.deleting = s.m.sbdd.deleting := by rw [← h2]; rfl
    refine inv_req_update s i r r1 m1 hget hinv0 (by rw [hm, hslot, hs1]; simp) hmd
      (fun _ => hs1) ?_
    rw [← h1]
    simpa [ReqInv] using hr
  next => cases hstep
  next => cases hstep

theorem inv_del_step (s : Sys) (m1 : Module) (d1 : DelPc)
    (hstep : del_step s.m s.del = some (m1, d1)) (hinv : Inv s) (hb : s.bounded = true) :
    Inv { s with m := m1, del := d1 } := by
  obtain ⟨hA, hB, hC0, hC1, hD⟩ := hinv
  simp only [Sys.bounded, decide_eq_true_eq] at hb
  have hmono : ∀ d, s.del.rank ≤ d.rank → ∀ r ∈ s.reqs, ReqInv d r :=
    fun d hd r hr => ReqInv_mono s.del d r hd (hD r hr)
  cases hdel : s.del <;> rw [hdel] at hstep hA hB hC0 hC1 hmono <;>
    simp only [del_step, Option.some.injEq, Prod.mk.injEq] at hstep
  · -- line 180
    obtain ⟨h1, h2⟩ := hstep
    subst h1 h2
    refine ⟨hA, fun h => by simp [DelPc.rank] at h, fun h => by simp [DelPc.rank] at h,
      fun _ _ => by simp [del_set_deleting], hmono _ (by simp [DelPc.rank])⟩
  · -- line 181
    obtain ⟨h1, h2⟩ := hstep
    subst h1 h2
    have hu : open_unit DelPc.flagged = 1 := rfl
    have hu1 : open_unit DelPc.draining = 0 := rfl
    rw [hu] at hA
    have hw : wrap32 (s.m.sbdd.refs_cnt - 1) = s.m.sbdd.refs_cnt - 1 :=
      wrap32_of_isInt32 _ (by unfold isInt32; omega)
    refine ⟨?_, fun h => by simp [DelPc.rank] at h, fun h => by simp [DelPc.rank] at h,
      fun _ _ => hC1 (by simp [DelPc.rank]) (by simp [DelPc.rank]),
      hmono _ (by simp [DelPc.rank])⟩
    show atomic_dec_if_positive s.m.sbdd.refs_cnt = open_unit DelPc.draining + inSlot s.reqs
    unfold atomic_dec_if_positive
    rw [hw, hu1]
    split <;> omega
  · -- line 182
    split at hstep
    next hw =>
      simp only [Option.some.injEq, Prod.mk.injEq] at hstep
      obtain ⟨h1, h2⟩ := hstep
      subst h1 h2
      have hu : open_unit DelPc.draining = 0 := rfl
      have hz : s.m.sbdd.refs_cnt = 0 := by
        simpa [wait_cond, atomic_read] using hw
      rw [hu] at hA
      have h0 : inSlot s.reqs = 0 := by omega
      refine ⟨hA, fun _ => h0, fun h => by simp [DelPc.rank] at h,
        fun _ _ => hC1 (by simp [DelPc.rank]) (by simp [DelPc.rank]),
        hmono _ (by simp [DelPc.rank])⟩
    next => cases hstep
  · -- lines 185-196
    obtain ⟨h1, h2⟩ := hstep
    subst h1 h2
    refine ⟨hA, fun _ => hB (by simp [DelPc.rank]), fun h => by simp [DelPc.rank] at h,
      fun _ _ => hC1 (by simp [DelPc.rank]) (by simp [DelPc.rank]),
      hmono _ (by simp [DelPc.rank])⟩
  · -- lines 198-201
    obtain ⟨h1, h2⟩ := hstep
    subst h1 h2
    have hs : (del_put s.m).sbdd = s.m.sbdd := by
      unfold del_put
      split <;> rfl
    refine ⟨?_, fun _ => hB (by simp [DelPc.rank]), fun h => by simp [DelPc.rank] at h,
      fun _ _ => ?_, hmono _ (by simp [DelPc.rank])⟩
    · show (del_put s.m).sbdd.refs_cnt = _
      rw [hs]; exact hA
    · show (del_put s.m).sbdd.deleting ≠ 0
      rw [hs]; exact hC1 (by simp [DelPc.rank]) (by simp [DelPc.rank])
  · -- lines 204-207
    obtain ⟨h1, h2⟩ := hstep
    subst h1 h2
    have h0 := hB (by simp [DelPc.rank])
    refine ⟨?_, fun _ => h0, fun h => by simp [DelPc.rank] at h,
      fun _ h => by simp [DelPc.rank] at h, hmono _ (by simp [DelPc.rank])⟩
    show (0 : Int) = open_unit DelPc.zeroed + inSlot s.reqs
    rw [h0]; rfl
  · -- lines 209-213
    obtain ⟨h1, h2⟩ := hstep
    subst h1 h2
    have hs : (del_unregister s.m).sbdd = s.m.sbdd := by
      unfold del_unregister
      split <;> rfl
    refine ⟨?_, fun _ => hB (by simp [DelPc.rank]), fun h => by simp [DelPc.rank] at h,
      fun _ h => by simp [DelPc.rank] at h, hmono _ (by simp [DelPc.rank])⟩
    show (del_unregister s.m).sbdd.refs_cnt = _
    rw [hs]; exact hA
  · cases hstep

/-- Every step from a bounded state keeps the invariant. -/
theorem inv_step (s s1 : Sys) (a : Act) (hstep : step s a = some s1)
    (hinv : Inv s) (hb : s.bounded = true) : Inv s1 := by
  cases a with
  | call bio =>
    simp only [step, Option.some.injEq] at hstep
    subst hstep
    obtain ⟨hA, hB, hC0, hC1, hD⟩ := hinv
    have hnew : inSlot (s.reqs ++ [Req.new bio]) = inSlot s.reqs := by
      rw [inSlot_append]; rfl
    refine ⟨?_, ?_, hC0, hC1, ?_⟩
    · show s.m.sbdd.refs_cnt = open_unit s.del + (inSlot (s.reqs ++ [Req.new bio]) : Int)
      rw [hnew]; exact hA
    · intro h
      show inSlot (s.reqs ++ [Req.new bio]) = 0
      rw [hnew]; exact hB h
    · intro r hr
      rcases List.mem_append.mp hr with hr | hr
      · exact hD r hr
      · simp at hr
        subst hr
        simp [ReqInv, Req.new]
  | req i e =>
    simp only [step] at hstep
    split at hstep
    next => cases hstep
    next r hget =>
      split at hstep
      next => cases hstep
      next r1 m1 hreq =>
        simp only [Option.some.injEq] at hstep
        subst hstep
        exact inv_req_step s i e r r1 m1 hget hreq hinv hb
  | complete i status =>
    simp only [step] at hstep
    split at hstep
    next => cases hstep
    next r hget =>
      split at hstep
      next c hcl =>
        simp only [Option.some.injEq] at hstep
        subst hstep
        have hri := hinv.2.2.2.2 r (mem_of_getElem_some _ _ _ hget)
        exact inv_req_update s i r _ s.m hget hinv rfl rfl
          (fun h => by
            have h0 := hinv.2.1 h
            have := slot_le_inSlot s.reqs i r hget
            show r.slot = 0
            omega)
          hri
      next => cases hstep
  | del =>
    simp only [step] at hstep
    split at hstep
    next => cases hstep
    next m1 d1 hd =>
      simp only [Option.some.injEq] at hstep
      subst hstep
      exact inv_del_step s m1 d1 hd hinv hb

theorem inv_run (sched : List Act) (s0 s : Sys) (hrun : run s0 sched = some s)
    (hinv : Inv s0) (hw : within s0 sched = true) : Inv s := by
  induction sched generalizing s0 with
  | nil =>
    simp only [run, Option.some.injEq] at hrun
    subst hrun
    exact hinv
  | cons a as ih =>
    simp only [run] at hrun
    simp only [within, Bool.and_eq_true] at hw
    split at hrun
    next => cases hrun
    next s1 hstep =>
      rw [hstep] at hw
      exact ih s1 hrun (inv_step s0 s1 a hstep hinv hw.1) hw.2

theorem inv_init (m : Module) (hd : m.sbdd.deleting = 0) (hr : m.sbdd.refs_cnt = 1) :
    Inv (Sys.init m) := by
  refine ⟨?_, ?_, fun _ => hd, ?_, ?_⟩
  · show m.sbdd.refs_cnt = open_unit DelPc.idle + (inSlot [] : Int)
    rw [hr]; rfl
  · intro _; rfl
  · intro h; simp [Sys.init, DelPc.rank] at h
  · intro r hr; simp [Sys.init] at hr

/-- The function `sbdd_make_request` is what one invocation does in the
interleavings when its statements run back to back. -/
theorem make_request_as_steps (m : Module) (del : DelPc) (bio : Bio) (e : MrEnv)
    (ret : Nat) (bio1 : Bio) (m1 : Module)
    (h : sbdd_make_request m bio e = some (ret, bio1, m1)) :
    ∃ n s r, run { m := m, reqs := [Req.new bio], del := del }
        (List.replicate n (Act.req 0 e)) = some s ∧
      s.m = m1 ∧ s.reqs = [r] ∧ r.bio = bio1 ∧
      (r.pc = ReqPc.returned ret ∨ (r.pc = ReqPc.rejected ∧ ret = BLK_STS_IOERR)) := by
  unfold sbdd_make_request at h
  split at h
  next hd =>
    simp only [mr_reject, Option.some.injEq, Prod.mk.injEq] at h
    obtain ⟨h1, h2, h3⟩ := h
    subst h1 h2 h3
    refine ⟨1, ⟨(mr_reject m bio).2,
      [⟨ReqPc.rejected, bio_io_error bio, CloneSt.not_submitted, some del, none⟩], del⟩,
      ⟨ReqPc.rejected, bio_io_error bio, CloneSt.not_submitted, some del, none⟩,
      ?_, rfl, rfl, rfl, Or.inr ⟨rfl, rfl⟩⟩
    simp [run, step, req_step, Req.new, hd, mr_reject]
  next hd =>
    split at h
    next ha =>
      simp only [mr_reject, Option.some.injEq, Prod.mk.injEq] at h
      obtain ⟨h1, h2, h3⟩ := h
      subst h1 h2 h3
      refine ⟨2, ⟨(mr_reject (mr_inc_not_zero m).2 bio).2,
        [⟨ReqPc.rejected, bio_io_error bio, CloneSt.not_submitted, some del, none⟩], del⟩,
        ⟨ReqPc.rejected, bio_io_error bio, CloneSt.not_submitted, some del, none⟩,
        ?_, rfl, rfl, rfl, Or.inr ⟨rfl, rfl⟩⟩
      simp [run, step, req_step, Req.new, hd, ha, List.replicate, mr_reject]
    next ha =>
      split at h
      next => cases h
      next clone bio2 hc =>
        simp only [Option.some.injEq, Prod.mk.injEq] at h
        obtain ⟨h1, h2, h3⟩ := h
        subst h1 h2 h3
        have hc1 : mr_clone (mr_submit (mr_inc_not_zero m).2 clone e).2 bio e
            = mr_clone (mr_inc_not_zero m).2 bio e := rfl
        refine ⟨4, ⟨mr_release (mr_submit (mr_inc_not_zero m).2 clone e).2,
          [⟨ReqPc.returned e.submit_ret, bio2, CloneSt.in_flight clone, some del, some del⟩],
          del⟩,
          ⟨ReqPc.returned e.submit_ret, bio2, CloneSt.in_flight clone, some del, some del⟩,
          ?_, rfl, rfl, rfl, Or.inl rfl⟩
        simp [run, step, req_step, Req.new, hd, ha, List.replicate, hc, mr_submit]

/-- The function `sbdd_delete` is what the teardown does in the interleavings
when no invocation of `sbdd_make_request` interferes. -/
theorem delete_as_steps (m m1 : Module) (reqs : List Req) (h : sbdd_delete m = .ok m1) :
    run { m := m, reqs := reqs, del := DelPc.idle } (List.replicate 7 Act.del) =
      some { m := m1, reqs := reqs, del := DelPc.finished } := by
  unfold sbdd_delete at h
  simp only at h
  by_cases hw : wait_cond (del_dec (del_set_deleting m)) = true
  · rw [if_pos hw] at h
    simp only [Except.ok.injEq] at h
    subst h
    simp [run, step, del_step, List.replicate, hw]
  · rw [if_neg hw] at h
    cases h


theorem inv_of_create (env : Env) (m : Module) (sched : List Act) (s : Sys)
    (hc : sbdd_create env Module.zero = .ok (0, m))
    (hrun : run (Sys.init m) sched = some s)
    (hw : within (Sys.init m) sched = true) : Inv s := by
  obtain ⟨d, qa, ga, -, -, -, -, -, hm⟩ := sbdd_create_ok env Module.zero m hc
  refine inv_run sched (Sys.init m) s hrun (inv_init m ?_ ?_) hw
  · rw [hm]
  · rw [hm]

/-- Once `wait_event` has returned in `sbdd_delete`, no invocation holds a
slot, and it stays so. -/
theorem drained_means_no_slot_held (env : Env) (m : Module) (sched : List Act) (s : Sys)
    (hc : sbdd_create env Module.zero = .ok (0, m))
    (hrun : run (Sys.init m) sched = some s)
    (hw : within (Sys.init m) sched = true)
    (hd : 3 ≤ s.del.rank) : inSlot s.reqs = 0 ∧ s.m.sbdd.refs_cnt = 0 := by
  obtain ⟨hA, hB, -, -, -⟩ := inv_of_create env m sched s hc hrun hw
  have h0 := hB hd
  have hu := open_unit_cases s.del
  exact ⟨h0, by omega⟩

/-- From the first statement of `sbdd_delete` on, `deleting` is set or
`refs_cnt` is zero. -/
theorem teardown_started_closes_gate (env : Env) (m : Module) (sched : List Act) (s : Sys)
    (hc : sbdd_create env Module.zero = .ok (0, m))
    (hrun : run (Sys.init m) sched = some s)
    (hw : within (Sys.init m) sched = true)
    (hd : s.del ≠ DelPc.idle) : s.m.sbdd.deleting ≠ 0 ∨ s.m.sbdd.refs_cnt = 0 := by
  obtain ⟨hA, hB, -, hC1, -⟩ := inv_of_create env m sched s hc hrun hw
  have hu := open_unit_cases s.del
  have h1 : 1 ≤ s.del.rank := by
    by_contra h
    exact hd (rank_eq_zero _ (by omega))
  by_cases h5 : s.del.rank ≤ 5
  · exact Or.inl (hC1 h1 h5)
  · have h0 := hB (by omega)
    exact Or.inr (by omega)

/-- C1: a schedule the code allows in which `blkdev_put` has closed the
backing handle while the clone of an admitted request is still in flight:
the request released its slot at line 97, right after `submit_bio` returned,
so `wait_event` in `sbdd_delete` found `refs_cnt` zero. -/
theorem C1_handle_closed_with_clone_in_flight :
    sbdd_create env1000 Module.zero = .ok (0, active1000) ∧
    ∃ s, run (Sys.init active1000) sched_close_early = some s ∧
      s.del = DelPc.handle_closed ∧ s.m.handles = [] ∧
      s.m.log = active1000.log ++
        [Event.inc_not_zero true, Event.submit_bio (clone_of bioW ⟨101, 0⟩ ⟨7, 1000, 512⟩),
         Event.dec_and_test false, Event.dec_if_positive, Event.del_gendisk 9,
         Event.blk_cleanup_queue 8, Event.put_disk 9, Event.blkdev_put 7] ∧
      s.reqs.map Req.clone = [CloneSt.in_flight (clone_of bioW ⟨101, 0⟩ ⟨7, 1000, 512⟩)] ∧
      inFlight s.reqs = 1 :=
  ⟨rfl, _, rfl, rfl, rfl, rfl, rfl, rfl⟩

/-- C4, as stated, fails in the state `sbdd_create` leaves: `refs_cnt` is 1
while no request has been admitted. -/
theorem C4_counterexample :
    sbdd_create env1000 Module.zero = .ok (0, active1000) ∧
    ∃ s, run (Sys.init active1000) [] = some s ∧
      ¬ (s.m.sbdd.refs_cnt ≤ (inSlot s.reqs : Int)) :=
  ⟨rfl, _, rfl, by decide⟩

/-- C4, amended: in every state reached from a successful `sbdd_create` by
invocations of `sbdd_make_request`, clone completions and one `sbdd_delete`
(with fewer than 2^31 - 2 slots held at any time), `refs_cnt` is the number of admitted
requests that have not released their slot plus the initial unit, which is 1
until line 181 of `sbdd_delete` has run and 0 afterwards; so it is never
negative and never exceeds that number by more than one. -/
theorem C4_refs_cnt_balance (env : Env) (m : Module) (sched : List Act) (s : Sys)
    (hc : sbdd_create env Module.zero = .ok (0, m))
    (hrun : run (Sys.init m) sched = some s)
    (hw : within (Sys.init m) sched = true) :
    s.m.sbdd.refs_cnt = open_unit s.del + inSlot s.reqs ∧
    0 ≤ s.m.sbdd.refs_cnt ∧ s.m.sbdd.refs_cnt ≤ inSlot s.reqs + 1 := by
  obtain ⟨hA, -, -, -, -⟩ := inv_of_create env m sched s hc hrun hw
  have hu := open_unit_cases s.del
  exact ⟨hA, by omega, by omega⟩

/-- C4, amended, while one request holds its slot and `sbdd_delete` waits:
`refs_cnt` is 1, one slot is held and the initial unit is gone. -/
theorem C4_refs_cnt_balance_witness :
    (runD (Sys.init active1000) sched_draining).m.sbdd.refs_cnt = 1 ∧
    inSlot (runD (Sys.init active1000) sched_draining).reqs = 1 ∧
    (runD (Sys.init active1000) sched_draining).del = DelPc.draining ∧
    ((runD (Sys.init active1000) sched_draining).m.sbdd.refs_cnt =
      open_unit (runD (Sys.init active1000) sched_draining).del +
        inSlot (runD (Sys.init active1000) sched_draining).reqs ∧
     0 ≤ (runD (Sys.init active1000) sched_draining).m.sbdd.refs_cnt ∧
     (runD (Sys.init active1000) sched_draining).m.sbdd.refs_cnt ≤
      inSlot (runD (Sys.init active1000) sched_draining).reqs + 1) :=
  ⟨rfl, rfl, rfl,
    C4_refs_cnt_balance env1000 active1000 sched_draining _ rfl rfl rfl⟩

/-- C3, as stated, fails: request 1 read `deleting` before line 180, and its
`atomic_inc_not_zero` succeeds after line 181 because request 0 still holds a
slot. The calls on `refs_cnt` are, in order, the admission of request 0, the
`atomic_dec_if_positive` of `sbdd_delete`, and the admission of request 1. -/
theorem C3_counterexample :
    sbdd_create env1000 Module.zero = .ok (0, active1000) ∧
    ∃ s r, run (Sys.init active1000) sched_late_admit = some s ∧
      s.del = DelPc.draining ∧ s.m.sbdd.deleting = 1 ∧ s.m.sbdd.refs_cnt = 2 ∧
      s.m.log = active1000.log ++
        [Event.inc_not_zero true, Event.dec_if_positive, Event.inc_not_zero true] ∧
      s.reqs[1]? = some r ∧ r.pc = ReqPc.admitted ∧
      r.read_at = some DelPc.idle ∧ r.admit_at = some DelPc.draining :=
  ⟨rfl, _, _, rfl, rfl, rfl, rfl, rfl, rfl, rfl, rfl, rfl⟩

/-- C3, amended: in every state reached from a successful `sbdd_create` (with
fewer than 2^31 - 2 slots held at any time), an invocation that executed line 75 after
`sbdd_delete` executed line 180 has not been admitted, and every admission
happened before `wait_event` returned in `sbdd_delete`. -/
theorem C3_no_admission_after_flag_read (env : Env) (m : Module) (sched : List Act) (s : Sys)
    (i : Nat) (r : Req)
    (hc : sbdd_create env Module.zero = .ok (0, m))
    (hrun : run (Sys.init m) sched = some s)
    (hw : within (Sys.init m) sched = true)
    (hr : s.reqs[i]? = some r) :
    (r.read_at ≠ some DelPc.idle → r.wasAdmitted = false ∧ r.admit_at = none) ∧
    (r.wasAdmitted = true → ∃ d, r.admit_at = some d ∧ d.rank ≤ 2) ∧
    (r.wasAdmitted = false → r.admit_at = none) := by
  obtain ⟨-, -, -, -, hD⟩ := inv_of_create env m sched s hc hrun hw
  have h := hD r (mem_of_getElem_some _ _ _ hr)
  unfold ReqInv at h
  unfold Req.wasAdmitted
  cases hpc : r.pc <;> rw [hpc] at h <;> simp only at h ⊢ <;> simp_all

/-- C3, amended, for a request that reads `deleting` while `sbdd_delete`
waits for request 0 to release its slot: it is rejected. -/
theorem C3_no_admission_after_flag_read_witness :
    (runD (Sys.init active1000) sched_draining).reqs[1]? = some late_reader ∧
    late_reader.read_at = some DelPc.draining ∧
    (late_reader.read_at ≠ some DelPc.idle →
      late_reader.wasAdmitted = false ∧ late_reader.admit_at = none) ∧
    (late_reader.wasAdmitted = true → ∃ d, late_reader.admit_at = some d ∧ d.rank ≤ 2) ∧
    (late_reader.wasAdmitted = false → late_reader.admit_at = none) :=
  ⟨rfl, rfl, C3_no_admission_after_flag_read env1000 active1000 sched_draining _ 1 late_reader
    rfl rfl rfl rfl⟩

end Sbdd
